import Mathlib

set_option maxRecDepth 10000

/-!
Shallow embedding of the Session-Scoped Face Attendance Resolver of
`face_recognition_app/services.py` (function `recognize_faces_in_stream`)
together with the data model it reads (`attendance/models.py`).

Modelling conventions:
* Embedding vectors are integer lists and the external distance metric
  (`face_recognition.face_distance`) is an explicit parameter `dist` into ℤ
  (think of fixed-point scaled floats: every claim below uses only the order
  structure of distances, never their arithmetic).
  `face_recognition.compare_faces(known, enc, tolerance)` is the list of
  booleans `dist known[i] enc <= tolerance`.
* Timestamps are integers (seconds); `timezone.timedelta(minutes=m)` is
  `60 * m` seconds.
* The Django per-process cache is an association list keyed by ficha id;
  `cache.get` returning `None` models both a missing and an expired entry.
* Database side effects are made explicit: the attendance table for the one
  session under consideration is an association list keyed by student id,
  and every call returns the updated table, the updated cache and a trace of
  the observable effects (reload from DB, cache write, face detection,
  record save, record-missing log line).
-/

namespace FaceLog

/-- An embedding vector (`numpy` array of floats in the source, modelled over `ℤ`). -/
abbrev Enc := List ℤ

/-- The pair of parallel lists `(known_encodings, known_student_ids)` built by
`recognize_faces_in_stream` and stored in the cache. -/
abbrev KnownData := List Enc × List ℕ

/-- What the resolver reads from one enrolled student (`services.py` lines 56-64):
whether `hasattr(student, 'face_encoding_data')`, the `is_active` flag, and the
result of `get_encoding_array()` (`none` models a `None` return). -/
structure Student where
  id : ℕ
  hasEncoding : Bool
  isActive : Bool
  encodingArray : Option Enc
  deriving Repr, DecidableEq

/-- A ficha (cohort): its primary key and enrolled students, as read by
`Ficha.objects.get(sessions__id=session_id)` and `ficha.students.all()`. -/
structure Ficha where
  id : ℕ
  students : List Student
  deriving Repr, DecidableEq

/-- `attendance.models.Attendance.STATUS_CHOICES`. -/
inductive Status where
  | absent
  | present
  | late
  | excused
  deriving Repr, DecidableEq

/-- The fields of one `Attendance` row that the resolver reads and writes. -/
structure AttRecord where
  status : Status
  check_in_time : Option ℤ
  verified_by_face : Bool
  deriving Repr, DecidableEq

/-- The attendance table restricted to the one session being processed:
student id ↦ record (`Attendance` is uniquely keyed by `(session, student)`). -/
abbrev AttDB := List (ℕ × AttRecord)

/-- The session fields read by the grace-period computation
(`services.py` lines 113-117): the aware start datetime
`make_aware(datetime.combine(session.date, session.start_time))` collapsed to
one integer timestamp, and `permisividad` in minutes. -/
structure Session where
  startDateTime : ℤ
  permisividad : ℤ
  deriving Repr, DecidableEq

/-- `grace_period_end = session_start_datetime + timedelta(minutes=session.permisividad)`. -/
def gracePeriodEnd (s : Session) : ℤ :=
  s.startDateTime + 60 * s.permisividad

/-- `new_status = 'present' if now <= grace_period_end else 'late'`
(`services.py` line 118). -/
def classify (s : Session) (now : ℤ) : Status :=
  if now ≤ gracePeriodEnd s then .present else .late

/-- Lookup in the per-session attendance table
(`Attendance.objects.get(session_id=…, student_id=…)`). -/
def dbLookup : AttDB → ℕ → Option AttRecord
  | [], _ => none
  | (k, r) :: rest, sid => if k = sid then some r else dbLookup rest sid

/-- Overwrite the record of student `sid` (the `attendance_record.save()` of an
existing row); rows of other students are untouched and no row is created. -/
def dbUpdate : AttDB → ℕ → AttRecord → AttDB
  | [], _, _ => []
  | (k, r) :: rest, sid, newR =>
      if k = sid then (sid, newR) :: dbUpdate rest sid newR
      else (k, r) :: dbUpdate rest sid newR

/-- Outcome of one face-verification application (`services.py` lines 107-139):
the record was transitioned and saved, or left alone because its status was not
`absent`, or `Attendance.DoesNotExist` was raised. -/
inductive ApplyResult where
  | transitioned (newStatus : Status)
  | noOp
  | recordMissing
  deriving Repr, DecidableEq

/-- The body guarded by `if matched_student_id:` in `services.py` lines 107-139:
look the record up; if its status is `absent`, set status by the grace rule,
set `check_in_time = now`, set `verified_by_face = True` and save; otherwise do
nothing; a missing record only logs and continues. Returns the outcome and the
updated table. -/
def applyFaceVerification (sess : Session) (db : AttDB) (sid : ℕ) (now : ℤ) :
    ApplyResult × AttDB :=
  match dbLookup db sid with
  | none => (.recordMissing, db)
  | some r =>
      if r.status = .absent then
        let ns := classify sess now
        (.transitioned ns, dbUpdate db sid ⟨ns, some now, true⟩)
      else (.noOp, db)

/-- Repeated application of `applyFaceVerification` for one student, one call
per timestamp in the list; returns the outcomes in order and the final table. -/
def applySeq (sess : Session) (db : AttDB) (sid : ℕ) : List ℤ → List ApplyResult × AttDB
  | [] => ([], db)
  | t :: rest =>
      let step := applyFaceVerification sess db sid t
      let tail := applySeq sess step.2 sid rest
      (step.1 :: tail.1, tail.2)

/-- The filter of `services.py` lines 58-64: a student contributes the pair
(encoding, id) iff the `face_encoding_data` attribute exists, is active, and
`get_encoding_array()` returned an array of length exactly 128; any other
active array length is skipped with a warning only. Builds the two parallel
lists `known_encodings` and `known_student_ids` in roster order. -/
def buildKnown : List Student → KnownData
  | [] => ([], [])
  | s :: rest =>
      let tail := buildKnown rest
      if s.hasEncoding && s.isActive then
        match s.encodingArray with
        | some a =>
            if a.length = 128 then (a :: tail.1, s.id :: tail.2) else tail
        | none => tail
      else tail

/-- `matches = compare_faces(known_encodings, stream_encoding, tolerance)` then
`matched_indices = [i for i, match in enumerate(matches) if match]`
(`services.py` lines 88-89). -/
def matchedIndicesOf (dist : Enc → Enc → ℤ) (thr : ℤ) (known : List Enc) (e : Enc) :
    List ℕ :=
  ((known.map fun k => decide (dist k e ≤ thr)).enum.filterMap
    fun p => if p.2 then some p.1 else none)

/-- `matched_student_id`: set only on a unique match (`len(matched_indices) == 1`,
`services.py` lines 91-94), `None` otherwise. -/
def matchedStudentId (ids : List ℕ) : List ℕ → Option ℕ
  | [j] => some (ids.getD j 0)
  | _ => none

/-- Python truthiness of `matched_student_id` as tested by
`if matched_student_id:` — `None` and `0` are falsy. -/
def truthy : Option ℕ → Bool
  | none => false
  | some n => n ≠ 0

/-- Per-detection match outcome, recorded for the audit of one frame:
unique / ambiguous / no-match, exactly as the three branches of
`services.py` lines 91-105 classify `matched_indices`. -/
inductive MatchOutcome where
  | unique (sid : ℕ)
  | ambiguous (sids : List ℕ)
  | noMatch
  deriving Repr, DecidableEq

/-- Observable side effects of one call, in program order. -/
inductive Event where
  | reloadFromDB
  | cacheSet (fichaId : ℕ)
  | detect
  | save (sid : ℕ)
  | logRecordMissing (sid : ℕ)
  deriving Repr, DecidableEq

/-- One element of the `recognized_students` list that the service returns:
`{'id': …, 'status': …}` (the full name is omitted from the model). -/
structure RecEntry where
  id : ℕ
  status : Status
  deriving Repr, DecidableEq

/-- Everything one iteration of the `for i, stream_encoding in enumerate(...)`
loop produces: the updated table, the element appended to
`recognized_students` (if any), its effects, and — as audit only, the source
merely logs them — the match outcome and the apply outcome (if attempted). -/
structure FaceStep where
  db : AttDB
  entry : Option RecEntry
  events : List Event
  outcome : MatchOutcome
  applyRes : Option ApplyResult
  deriving Repr, DecidableEq

/-- The loop body of `services.py` lines 84-139 for one detected face. -/
def processFace (dist : Enc → Enc → ℤ) (thr : ℤ) (knownEncs : List Enc)
    (knownIds : List ℕ) (sess : Session) (now : ℤ) (db : AttDB) (e : Enc) :
    FaceStep :=
  let idxs := matchedIndicesOf dist thr knownEncs e
  let msid := matchedStudentId knownIds idxs
  let outcome : MatchOutcome :=
    match idxs with
    | [] => .noMatch
    | [j] => .unique (knownIds.getD j 0)
    | js => .ambiguous (js.map fun j => knownIds.getD j 0)
  if truthy msid then
    let sid := msid.getD 0
    let step := applyFaceVerification sess db sid now
    match step.1 with
    | .recordMissing =>
        ⟨db, none, [.logRecordMissing sid], outcome, some .recordMissing⟩
    | .noOp => ⟨db, none, [], outcome, some .noOp⟩
    | .transitioned ns =>
        ⟨step.2, some ⟨sid, ns⟩, [.save sid], outcome, some (.transitioned ns)⟩
  else ⟨db, none, [], outcome, none⟩

/-- Result of running the loop over the whole list of detected faces:
final table, `recognized_students` in order, effects in order, and the
per-detection audit `(matchOutcome, applyOutcome?)` in order. -/
structure LoopResult where
  db : AttDB
  entries : List RecEntry
  events : List Event
  audit : List (MatchOutcome × Option ApplyResult)
  deriving Repr, DecidableEq

/-- The `for` loop of `services.py` lines 84-139 over all detections. -/
def recognizeLoop (dist : Enc → Enc → ℤ) (thr : ℤ) (knownEncs : List Enc)
    (knownIds : List ℕ) (sess : Session) (now : ℤ) :
    AttDB → List Enc → LoopResult
  | db, [] => ⟨db, [], [], []⟩
  | db, e :: rest =>
      let st := processFace dist thr knownEncs knownIds sess now db e
      let tail := recognizeLoop dist thr knownEncs knownIds sess now st.db rest
      ⟨tail.db, st.entry.toList ++ tail.entries, st.events ++ tail.events,
        (st.outcome, st.applyRes) :: tail.audit⟩

/-- The per-process cache: ficha id ↦ `(known_encodings, known_student_ids)`.
`none` from lookup models both a missing key and a TTL-expired entry. -/
abbrev Cache := List (ℕ × KnownData)

/-- `cache.get(f"ficha_encodings_{ficha.id}")`. -/
def cacheLookup : Cache → ℕ → Option KnownData
  | [], _ => none
  | (k, d) :: rest, key => if k = key then some d else cacheLookup rest key

/-- `cache.set(f"ficha_encodings_{ficha.id}", data, 3600)`. -/
def cacheSet (c : Cache) (key : ℕ) (d : KnownData) : Cache :=
  (key, d) :: c

/-- The value `recognize_faces_in_stream` returns: one of its three error
dictionaries, or `{"recognized_students": [...]}`. -/
inductive RecognizeResult where
  | errorNoFicha
  | errorNoActive
  | errorNoFace
  | recognized (students : List RecEntry)
  deriving Repr, DecidableEq

/-- One full call: result, final attendance table, final cache, effect trace. -/
structure RecognizeOutput where
  result : RecognizeResult
  db : AttDB
  cache : Cache
  events : List Event
  deriving Repr, DecidableEq

/-- The part of `recognize_faces_in_stream` after the known encodings are in
hand (`services.py` lines 76-141): run face detection on the frame (the
detections themselves come from the external capability and are an input
here), return the no-face error on an empty detection list, otherwise run the
per-face loop and wrap `recognized_students`. -/
def recognizeWithKnown (dist : Enc → Enc → ℤ) (thr : ℤ) (data : KnownData)
    (cache : Cache) (detections : List Enc) (sess : Session) (db : AttDB)
    (now : ℤ) (evs : List Event) : RecognizeOutput :=
  let evs := evs ++ [.detect]
  match detections with
  | [] => ⟨.errorNoFace, db, cache, evs⟩
  | ds =>
      let lr := recognizeLoop dist thr data.1 data.2 sess now db ds
      ⟨.recognized lr.entries, lr.db, cache, evs ++ lr.events⟩

/-- `recognize_faces_in_stream` (`services.py` lines 33-148). Inputs:
the distance capability and tolerance (`FaceRecognitionSettings`), the ficha
of the session (`none` models `Ficha.DoesNotExist`), the current cache, the
detections the external detector finds in the frame, the session's schedule,
the attendance table of the session, and the clock. On a cache miss the
parallel known lists are built from the roster; if empty, the no-active error
is returned *before* any cache write and before detection; otherwise they are
cached and the frame is processed. On a cache hit the cached lists are used
as-is. -/
def recognize (dist : Enc → Enc → ℤ) (thr : ℤ) (fichaOpt : Option Ficha)
    (cache : Cache) (detections : List Enc) (sess : Session) (db : AttDB)
    (now : ℤ) : RecognizeOutput :=
  match fichaOpt with
  | none => ⟨.errorNoFicha, db, cache, []⟩
  | some ficha =>
      match cacheLookup cache ficha.id with
      | some data =>
          recognizeWithKnown dist thr data cache detections sess db now []
      | none =>
          let data := buildKnown ficha.students
          if data.1.isEmpty then
            ⟨.errorNoActive, db, cache, [.reloadFromDB]⟩
          else
            recognizeWithKnown dist thr data (cacheSet cache ficha.id data)
              detections sess db now [.reloadFromDB, .cacheSet ficha.id]

/-- A concrete distance metric used only to instantiate theorems at concrete
inputs: the L1 distance of two vectors (absolute difference spelled out with
`if` so that it evaluates by kernel reduction). -/
def l1dist (a b : Enc) : ℤ :=
  (List.zipWith (fun x y => if x ≤ y then y - x else x - y) a b).foldl (· + ·) 0

/-- A length-128 all-zero encoding, used in concrete scenarios. -/
def enc0 : Enc := List.replicate 128 0

/-- A length-128 all-ten encoding, far from `enc0` under `l1dist`. -/
def enc10 : Enc := List.replicate 128 10

/-- Cohort 5 while student 3's encoding is still active. -/
def fichaActive5 : Ficha := ⟨5, [⟨3, true, true, some enc0⟩]⟩

/-- Cohort 5 after student 3's encoding was deactivated: its set of active
embeddings is empty. -/
def fichaInactive5 : Ficha := ⟨5, [⟨3, true, false, some enc0⟩]⟩

/-- The cache produced by a first call for cohort 5 while the encoding was
active (the call itself sees no detections; it still populates the cache). -/
def warmedCache : Cache :=
  (recognize l1dist 1 (some fichaActive5) [] [] ⟨32400, 10⟩ [] 0).cache

/-- A second call for cohort 5 after the deactivation, within the cache TTL:
the stale cached entry is served although the cohort has no active
embeddings any more. -/
def staleCall : RecognizeOutput :=
  recognize l1dist 1 (some fichaInactive5) warmedCache [enc0] ⟨32400, 10⟩ [] 0

/-- Cohort 11: two students enrolled with *identical* active encodings, so
any detection near one of them is ambiguous. -/
def fichaAmb : Ficha := ⟨11, [⟨1, true, true, some enc0⟩, ⟨2, true, true, some enc0⟩]⟩

/-- Cohort 9: students 7 and 8 with distinguishable active encodings. -/
def fichaTwo : Ficha := ⟨9, [⟨7, true, true, some enc0⟩, ⟨8, true, true, some enc10⟩]⟩

/-- A call for cohort 9 whose frame shows both faces, while the attendance
table has a row for student 8 only (student 7 is not enrolled in the
session). -/
def missingCall : RecognizeOutput :=
  recognize l1dist 1 (some fichaTwo) [] [enc0, enc10] ⟨32400, 10⟩
    [(8, ⟨.absent, none, false⟩)] 33000

/-- What an audit pair contributes to the returned `recognized_students`
list: exactly the uniquely matched detections whose application transitioned
the record; every other detection contributes nothing. -/
def auditEntry : MatchOutcome × Option ApplyResult → Option RecEntry
  | (.unique sid, some (.transitioned s)) => some ⟨sid, s⟩
  | _ => none

/-! ### An interleaving model of the cache check-then-set (for C8)

`services.py` lines 46-72 run `cache.get(key)` and — on a miss — a reload
from the enrollment store followed by `cache.set`. There is no lock: two
request handlers may interleave these steps freely. One caller is a program
counter plus the value its `cache.get` returned; pc 0 is about to run
`cache.get`, pc 1 is about to act on what it saw (on a miss: reload and
`cache.set`, counted in `reloads`; modelling the reload and the set as one
atomic step only *removes* interleavings, so any racy schedule exhibited
below also exists in the finer-grained source), pc 2 is done. The reload is
the successful path that caches a non-empty roster (the empty-roster path
returns without writing, see C9). -/

structure CallerState where
  pc : ℕ
  seen : Option KnownData
  deriving Repr, DecidableEq

structure RaceState where
  cache : Option KnownData
  c1 : CallerState
  c2 : CallerState
  reloads : ℕ
  deriving Repr, DecidableEq

/-- One atomic step of one caller against the shared cache cell. -/
def callerStep (dbData : KnownData) (cache : Option KnownData)
    (c : CallerState) (reloads : ℕ) : Option KnownData × CallerState × ℕ :=
  match c.pc with
  | 0 => (cache, ⟨1, cache⟩, reloads)
  | 1 =>
      match c.seen with
      | some d => (cache, ⟨2, some d⟩, reloads)
      | none => (some dbData, ⟨2, some dbData⟩, reloads + 1)
  | _ => (cache, c, reloads)

/-- Schedule one of the two callers for its next atomic step. -/
def raceStep (dbData : KnownData) (s : RaceState) (which : Bool) : RaceState :=
  if which then
    let r := callerStep dbData s.cache s.c2 s.reloads
    ⟨r.1, s.c1, r.2.1, r.2.2⟩
  else
    let r := callerStep dbData s.cache s.c1 s.reloads
    ⟨r.1, r.2.1, s.c2, r.2.2⟩

/-- Run a whole interleaving (list of caller choices). -/
def runSched (dbData : KnownData) : RaceState → List Bool → RaceState
  | s, [] => s
  | s, b :: rest => runSched dbData (raceStep dbData s b) rest

/-- Both callers about to issue `cache.get` against a missing/expired entry. -/
def raceInit : RaceState := ⟨none, ⟨0, none⟩, ⟨0, none⟩, 0⟩

/-- Invariant of the race: the cache only ever holds the store's data and
only after a reload; a caller that has read `some` data read the store's
data after at least one reload; a finished caller has data; and the reload
count is bounded by the number of finished callers. -/
def RaceInv (dbData : KnownData) (s : RaceState) : Prop :=
  (∀ d, s.cache = some d → d = dbData ∧ 1 ≤ s.reloads) ∧
  (∀ d, s.c1.seen = some d → d = dbData ∧ 1 ≤ s.reloads) ∧
  (∀ d, s.c2.seen = some d → d = dbData ∧ 1 ≤ s.reloads) ∧
  (s.c1.pc = 2 → s.c1.seen ≠ none) ∧
  (s.c2.pc = 2 → s.c2.seen ≠ none) ∧
  s.reloads ≤ (if s.c1.pc = 2 then 1 else 0) + (if s.c2.pc = 2 then 1 else 0)

/-- Spec-side description of one roster entry, written from the claim's words
(used only to compare with `buildKnown`, which is written from the source): a
student contributes the pair (stored array, student id) exactly when it has a
face-encoding record, the record is active, and the stored array has length
exactly 128. -/
def activeLen128Pair (s : Student) : Option (Enc × ℕ) :=
  match s.encodingArray with
  | some a =>
      if s.hasEncoding && s.isActive && (a.length == 128) then some (a, s.id)
      else none
  | none => none

/-! ### Helper lemmas -/

theorem classify_cases (s : Session) (now : ℤ) :
    classify s now = .present ∨ classify s now = .late := by
  unfold classify; split <;> simp

theorem classify_ne_absent (s : Session) (now : ℤ) : classify s now ≠ .absent := by
  rcases classify_cases s now with h | h <;> simp [h]

theorem dbLookup_dbUpdate_self (db : AttDB) (sid : ℕ) (r : AttRecord)
    (h : (dbLookup db sid).isSome) :
    dbLookup (dbUpdate db sid r) sid = some r := by
  induction db with
  | nil => simp [dbLookup] at h
  | cons p rest ih =>
      obtain ⟨k, r₀⟩ := p
      by_cases hk : k = sid
      · subst hk; simp [dbUpdate, dbLookup]
      · simp [dbUpdate, dbLookup, hk] at h ⊢
        exact ih h

theorem dbLookup_dbUpdate_ne (db : AttDB) (sid : ℕ) (r : AttRecord) (a : ℕ)
    (h : a ≠ sid) :
    dbLookup (dbUpdate db sid r) a = dbLookup db a := by
  induction db with
  | nil => simp [dbUpdate, dbLookup]
  | cons p rest ih =>
      obtain ⟨k, r₀⟩ := p
      by_cases hk : k = sid
      · subst hk
        simp [dbUpdate, dbLookup, Ne.symm h, ih]
      · simp [dbUpdate, dbLookup, hk, ih]

theorem applyFaceVerification_nonAbsent (sess : Session) (db : AttDB) (sid : ℕ)
    (now : ℤ) (r : AttRecord) (hr : dbLookup db sid = some r)
    (h : r.status ≠ .absent) :
    applyFaceVerification sess db sid now = (.noOp, db) := by
  simp [applyFaceVerification, hr, h]

theorem applySeq_nonAbsent (sess : Session) (sid : ℕ) (ts : List ℤ)
    (db : AttDB) (r : AttRecord) (hr : dbLookup db sid = some r)
    (h : r.status ≠ .absent) :
    applySeq sess db sid ts = (ts.map fun _ => .noOp, db) := by
  induction ts with
  | nil => simp [applySeq]
  | cons t rest ih =>
      simp [applySeq, applyFaceVerification_nonAbsent sess db sid t r hr h, ih]

theorem cacheLookup_cacheSet (c : Cache) (k : ℕ) (d : KnownData) (key : ℕ) :
    cacheLookup (cacheSet c k d) key =
      if k = key then some d else cacheLookup c key := rfl

theorem recognizeWithKnown_cache (dist : Enc → Enc → ℤ) (thr : ℤ)
    (data : KnownData) (cache : Cache) (ds : List Enc) (sess : Session)
    (db : AttDB) (now : ℤ) (evs : List Event) :
    (recognizeWithKnown dist thr data cache ds sess db now evs).cache = cache := by
  cases ds <;> rfl

theorem buildKnown_eq_nil (students : List Student)
    (h : ∀ s ∈ students, ¬(s.hasEncoding = true ∧ s.isActive = true)) :
    buildKnown students = ([], []) := by
  induction students with
  | nil => rfl
  | cons s rest ih =>
      have hs := h s (by simp)
      have hrest := ih fun x hx => h x (by simp [hx])
      have hguard : (s.hasEncoding && s.isActive) = false := by
        cases he : s.hasEncoding <;> cases ha : s.isActive <;> simp_all
      simp [buildKnown, hguard, hrest]

theorem processFace_entry_eq_auditEntry (dist : Enc → Enc → ℤ) (thr : ℤ)
    (kE : List Enc) (kI : List ℕ) (sess : Session) (now : ℤ) (db : AttDB)
    (e : Enc) :
    (processFace dist thr kE kI sess now db e).entry =
      auditEntry ((processFace dist thr kE kI sess now db e).outcome,
        (processFace dist thr kE kI sess now db e).applyRes) := by
  rcases hx : matchedIndicesOf dist thr kE e with _ | ⟨a, _ | ⟨b, rest⟩⟩
  · simp [processFace, hx, matchedStudentId, truthy, auditEntry]
  · by_cases h0 : kI.getD a 0 = 0
    · rw [List.getD_eq_getElem?_getD] at h0
      simp [processFace, hx, matchedStudentId, truthy, h0, auditEntry]
    · rw [List.getD_eq_getElem?_getD] at h0
      cases hap : (applyFaceVerification sess db (kI[a]?.getD 0) now).1 with
      | transitioned ns =>
          simp [processFace, hx, matchedStudentId, truthy, h0, hap, auditEntry]
      | noOp => simp [processFace, hx, matchedStudentId, truthy, h0, hap, auditEntry]
      | recordMissing =>
          simp [processFace, hx, matchedStudentId, truthy, h0, hap, auditEntry]
  · simp [processFace, hx, matchedStudentId, truthy, auditEntry]

theorem recognizeLoop_entries_audit (dist : Enc → Enc → ℤ) (thr : ℤ)
    (kE : List Enc) (kI : List ℕ) (sess : Session) (now : ℤ) (ds : List Enc)
    (db : AttDB) :
    (recognizeLoop dist thr kE kI sess now db ds).audit.length = ds.length ∧
    (recognizeLoop dist thr kE kI sess now db ds).entries =
      (recognizeLoop dist thr kE kI sess now db ds).audit.filterMap auditEntry := by
  induction ds generalizing db with
  | nil => simp [recognizeLoop]
  | cons e rest ih =>
      obtain ⟨ih1, ih2⟩ :=
        ih (processFace dist thr kE kI sess now db e).db
      refine ⟨by simp [recognizeLoop, ih1], ?_⟩
      have hentry := processFace_entry_eq_auditEntry dist thr kE kI sess now db e
      cases hae : auditEntry ((processFace dist thr kE kI sess now db e).outcome,
          (processFace dist thr kE kI sess now db e).applyRes) with
      | none =>
          rw [hae] at hentry
          simp [recognizeLoop, List.filterMap_cons, hae, hentry, ih2]
      | some r =>
          rw [hae] at hentry
          simp [recognizeLoop, List.filterMap_cons, hae, hentry, ih2]

theorem raceInv_step (dbData : KnownData) (s : RaceState) (b : Bool)
    (h : RaceInv dbData s) : RaceInv dbData (raceStep dbData s b) := by
  obtain ⟨hc, h1, h2, p1, p2, hr⟩ := h
  cases b
  · rcases hpc : s.c1.pc with _ | pc1
    · have hstep : raceStep dbData s false =
          ⟨s.cache, ⟨1, s.cache⟩, s.c2, s.reloads⟩ := by
        simp [raceStep, callerStep, hpc]
      rw [hstep]
      refine ⟨hc, hc, h2, by simp, p2, ?_⟩
      simpa [hpc] using hr
    · rcases pc1 with _ | pc2
      · cases hseen : s.c1.seen with
        | none =>
            have hstep : raceStep dbData s false =
                ⟨some dbData, ⟨2, some dbData⟩, s.c2, s.reloads + 1⟩ := by
              simp [raceStep, callerStep, hpc, hseen]
            rw [hstep]
            refine ⟨?_, ?_, ?_, by simp, p2, ?_⟩
            · intro d hd
              obtain rfl : dbData = d := by simpa using hd
              exact ⟨rfl, Nat.le_add_left 1 s.reloads⟩
            · intro d hd
              obtain rfl : dbData = d := by simpa using hd
              exact ⟨rfl, Nat.le_add_left 1 s.reloads⟩
            · intro d hd
              exact ⟨(h2 d hd).1, Nat.le_add_left 1 s.reloads⟩
            · by_cases hq : s.c2.pc = 2 <;> simp [hq, hpc] at hr ⊢ <;> omega
        | some d0 =>
            have hstep : raceStep dbData s false =
                ⟨s.cache, ⟨2, some d0⟩, s.c2, s.reloads⟩ := by
              simp [raceStep, callerStep, hpc, hseen]
            rw [hstep]
            refine ⟨hc, ?_, h2, by simp, p2, ?_⟩
            · intro d hd
              obtain rfl : d0 = d := by simpa using hd
              exact h1 d0 hseen
            · by_cases hq : s.c2.pc = 2 <;> simp [hq, hpc] at hr ⊢ <;> omega
      · have hstep : raceStep dbData s false = s := by
          simp [raceStep, callerStep, hpc]
        rw [hstep]
        exact ⟨hc, h1, h2, p1, p2, hr⟩
  · rcases hpc : s.c2.pc with _ | pc1
    · have hstep : raceStep dbData s true =
          ⟨s.cache, s.c1, ⟨1, s.cache⟩, s.reloads⟩ := by
        simp [raceStep, callerStep, hpc]
      rw [hstep]
      refine ⟨hc, h1, hc, p1, by simp, ?_⟩
      simpa [hpc] using hr
    · rcases pc1 with _ | pc2
      · cases hseen : s.c2.seen with
        | none =>
            have hstep : raceStep dbData s true =
                ⟨some dbData, s.c1, ⟨2, some dbData⟩, s.reloads + 1⟩ := by
              simp [raceStep, callerStep, hpc, hseen]
            rw [hstep]
            refine ⟨?_, ?_, ?_, p1, by simp, ?_⟩
            · intro d hd
              obtain rfl : dbData = d := by simpa using hd
              exact ⟨rfl, Nat.le_add_left 1 s.reloads⟩
            · intro d hd
              exact ⟨(h1 d hd).1, Nat.le_add_left 1 s.reloads⟩
            · intro d hd
              obtain rfl : dbData = d := by simpa using hd
              exact ⟨rfl, Nat.le_add_left 1 s.reloads⟩
            · by_cases hq : s.c1.pc = 2 <;> simp [hq, hpc] at hr ⊢ <;> omega
        | some d0 =>
            have hstep : raceStep dbData s true =
                ⟨s.cache, s.c1, ⟨2, some d0⟩, s.reloads⟩ := by
              simp [raceStep, callerStep, hpc, hseen]
            rw [hstep]
            refine ⟨hc, h1, ?_, p1, by simp, ?_⟩
            · intro d hd
              obtain rfl : d0 = d := by simpa using hd
              exact h2 d0 hseen
            · by_cases hq : s.c1.pc = 2 <;> simp [hq, hpc] at hr ⊢ <;> omega
      · have hstep : raceStep dbData s true = s := by
          simp [raceStep, callerStep, hpc]
        rw [hstep]
        exact ⟨hc, h1, h2, p1, p2, hr⟩

theorem raceInv_run (dbData : KnownData) (sch : List Bool) (s : RaceState)
    (h : RaceInv dbData s) : RaceInv dbData (runSched dbData s sch) := by
  induction sch generalizing s with
  | nil => exact h
  | cons b rest ih => exact ih _ (raceInv_step dbData s b h)

theorem raceInv_init (dbData : KnownData) : RaceInv dbData raceInit := by
  refine ⟨?_, ?_, ?_, ?_, ?_, ?_⟩ <;> simp [raceInit, RaceInv]

/-! ### Claim theorems -/

/-- **C1.** Idempotency of face verification: for any non-empty sequence of
applications for one (session, student) record with non-decreasing
timestamps, starting from an `absent` record, exactly the first application
transitions the record; every later one returns `NoOp` and performs no
mutation, and the final status, check-in time and verified-by-face flag are
exactly those written by the first application. -/
theorem idempotent_face_verification (sess : Session) (db : AttDB) (sid : ℕ)
    (r : AttRecord) (t : ℤ) (rest : List ℤ)
    (hr : dbLookup db sid = some r) (habs : r.status = .absent)
    (_hmono : List.Chain' (· ≤ ·) (t :: rest)) :
    (applySeq sess db sid (t :: rest)).1 =
        .transitioned (classify sess t) :: rest.map (fun _ => .noOp) ∧
    dbLookup (applySeq sess db sid (t :: rest)).2 sid =
        some ⟨classify sess t, some t, true⟩ := by
  have hstep : applyFaceVerification sess db sid t =
      (.transitioned (classify sess t),
        dbUpdate db sid ⟨classify sess t, some t, true⟩) := by
    simp [applyFaceVerification, hr, habs]
  have hsome : (dbLookup db sid).isSome := by simp [hr]
  have hlook : dbLookup (dbUpdate db sid ⟨classify sess t, some t, true⟩) sid =
      some ⟨classify sess t, some t, true⟩ :=
    dbLookup_dbUpdate_self db sid _ hsome
  have htail := applySeq_nonAbsent sess sid rest
      (dbUpdate db sid ⟨classify sess t, some t, true⟩)
      ⟨classify sess t, some t, true⟩ hlook (by simpa using classify_ne_absent sess t)
  constructor
  · simp [applySeq, hstep, htail]
  · simp [applySeq, hstep, htail, hlook]

/-- Witness for C1 at a concrete input: record for student 1 starts absent,
two applications at 09:10:00 and 09:18:20; the first transitions, the second
is a no-op. -/
theorem idempotent_face_verification_witness :
    (applySeq ⟨32400, 10⟩ [(1, ⟨Status.absent, none, false⟩)] 1
        [33000, 33500]).1 =
      ApplyResult.transitioned (classify ⟨32400, 10⟩ 33000) ::
        [(33500 : ℤ)].map (fun _ => ApplyResult.noOp) ∧
    dbLookup (applySeq ⟨32400, 10⟩ [(1, ⟨Status.absent, none, false⟩)] 1
        [33000, 33500]).2 1 =
      some ⟨classify ⟨32400, 10⟩ 33000, some 33000, true⟩ :=
  idempotent_face_verification ⟨32400, 10⟩ [(1, ⟨.absent, none, false⟩)] 1
    ⟨.absent, none, false⟩ 33000 [33500] rfl rfl
    (by simp [List.chain'_cons])

/-- **C2.** Grace boundary: a transition out of `absent` is classified
`present` iff the observed time is at most scheduled start plus the grace
minutes (boundary inclusive) and `late` when strictly greater; concretely,
with start 09:00:00 (= 32400 s) and 10 grace minutes, 09:10:00 (= 33000 s)
is `present` and 09:10:01 (= 33001 s) is `late`. -/
theorem grace_boundary (sess : Session) (now : ℤ) :
    (now ≤ gracePeriodEnd sess → classify sess now = .present) ∧
    (gracePeriodEnd sess < now → classify sess now = .late) ∧
    classify ⟨32400, 10⟩ 33000 = .present ∧
    classify ⟨32400, 10⟩ 33001 = .late := by
  refine ⟨fun h => ?_, fun h => ?_, by decide, by decide⟩
  · simp [classify, h]
  · simp [classify, not_le.mpr h]

/-- Witness for C2: both directions applied at the boundary instants. -/
theorem grace_boundary_witness :
    classify ⟨32400, 10⟩ 33000 = .present ∧
    classify ⟨32400, 10⟩ 33001 = .late :=
  ⟨(grace_boundary ⟨32400, 10⟩ 33000).1 (by decide),
   (grace_boundary ⟨32400, 10⟩ 33001).2.1 (by decide)⟩

/-- **C4.** When the record of the matched student is `absent`, one
application atomically writes status = grace classification, check-in time =
observed timestamp, verified-by-face = true (a single record overwrite); and
no application whatsoever can leave a record with status `absent` or
`excused` unless that record was already there unchanged. -/
theorem absent_transition_fields (sess : Session) (db : AttDB) (sid : ℕ)
    (now : ℤ) (r : AttRecord) (hr : dbLookup db sid = some r)
    (habs : r.status = .absent) :
    applyFaceVerification sess db sid now =
      (.transitioned (classify sess now),
        dbUpdate db sid ⟨classify sess now, some now, true⟩) ∧
    (∀ (db₁ : AttDB) (sid₁ : ℕ) (now₁ : ℤ) (a : ℕ) (r₁ : AttRecord),
        dbLookup (applyFaceVerification sess db₁ sid₁ now₁).2 a = some r₁ →
        dbLookup db₁ a = some r₁ ∨
          r₁.status = .present ∨ r₁.status = .late) := by
  constructor
  · simp [applyFaceVerification, hr, habs]
  · intro db₁ sid₁ now₁ a r₁ hpost
    cases hl : dbLookup db₁ sid₁ with
    | none =>
        left
        simpa [applyFaceVerification, hl] using hpost
    | some r₀ =>
        by_cases h₀ : r₀.status = .absent
        · rw [show (applyFaceVerification sess db₁ sid₁ now₁).2 =
              dbUpdate db₁ sid₁ ⟨classify sess now₁, some now₁, true⟩ by
                simp [applyFaceVerification, hl, h₀]] at hpost
          by_cases ha : a = sid₁
          · subst ha
            rw [dbLookup_dbUpdate_self db₁ a _ (by simp [hl])] at hpost
            right
            obtain rfl : (⟨classify sess now₁, some now₁, true⟩ : AttRecord) = r₁ :=
              by injection hpost
            simpa using classify_cases sess now₁
          · left
            rwa [dbLookup_dbUpdate_ne db₁ sid₁ _ a ha] at hpost
        · left
          simpa [applyFaceVerification, hl, h₀] using hpost

/-- **C3.** Ambiguity never mutates: when the detection's distance is within
threshold of two or more known embeddings, the loop body performs no
face-verification application at all — the attendance table is returned
unchanged, no result entry and no effect is produced, only the ambiguous
match outcome is recorded. -/
theorem ambiguity_never_mutates (dist : Enc → Enc → ℤ) (thr : ℤ)
    (knownEncs : List Enc) (knownIds : List ℕ) (sess : Session) (now : ℤ)
    (db : AttDB) (e : Enc)
    (h : 2 ≤ (matchedIndicesOf dist thr knownEncs e).length) :
    processFace dist thr knownEncs knownIds sess now db e =
      ⟨db, none, [],
        .ambiguous ((matchedIndicesOf dist thr knownEncs e).map
          fun j => knownIds.getD j 0), none⟩ := by
  rcases hx : matchedIndicesOf dist thr knownEncs e with _ | ⟨a, _ | ⟨b, rest⟩⟩
  · rw [hx] at h; simp at h
  · rw [hx] at h; simp at h
  · simp [processFace, hx, matchedStudentId, truthy]

/-- Witness for C3: one detection within threshold of the embeddings of both
student 1 and student 2; both their absent records stay untouched. -/
theorem ambiguity_never_mutates_witness :
    processFace l1dist 1 [[0], [0]] [1, 2] ⟨32400, 10⟩ 33000
        [(1, ⟨Status.absent, none, false⟩), (2, ⟨Status.absent, none, false⟩)]
        [0] =
      ⟨[(1, ⟨Status.absent, none, false⟩), (2, ⟨Status.absent, none, false⟩)],
        none, [],
        .ambiguous ((matchedIndicesOf l1dist 1 [[0], [0]] [0]).map
          fun j => [1, 2].getD j 0), none⟩ :=
  ambiguity_never_mutates l1dist 1 [[0], [0]] [1, 2] ⟨32400, 10⟩ 33000
    [(1, ⟨Status.absent, none, false⟩), (2, ⟨Status.absent, none, false⟩)] [0]
    (by decide)

/-- **C10.** The known set is exactly the students with an active
face-encoding record whose stored array has length exactly 128 (any other
active array length is excluded), and the two parallel lists have equal
length with index i of one corresponding to index i of the other — their
zip equals the roster filtered by the spec-side predicate, in roster order. -/
theorem known_set_parallel_exact (students : List Student) :
    (buildKnown students).1.length = (buildKnown students).2.length ∧
    (buildKnown students).1.zip (buildKnown students).2 =
      students.filterMap activeLen128Pair := by
  induction students with
  | nil => simp [buildKnown]
  | cons s rest ih =>
      obtain ⟨ih1, ih2⟩ := ih
      cases harr : s.encodingArray with
      | none =>
          cases h1 : (s.hasEncoding && s.isActive) <;>
            simp [buildKnown, activeLen128Pair, h1, harr, ih1, ih2]
      | some a =>
          cases h1 : (s.hasEncoding && s.isActive)
          · simp [buildKnown, activeLen128Pair, h1, harr, ih1, ih2]
          · by_cases h2 : a.length = 128 <;>
              simp [buildKnown, activeLen128Pair, h1, harr, h2, ih1, ih2]

/-- Witness for C4 at a concrete input: student 2's absent record is
transitioned with all three fields written at once. -/
theorem absent_transition_fields_witness :
    applyFaceVerification ⟨32400, 10⟩ [(2, ⟨Status.absent, none, false⟩)] 2 33600 =
      (.transitioned (classify ⟨32400, 10⟩ 33600),
        dbUpdate [(2, ⟨Status.absent, none, false⟩)] 2
          ⟨classify ⟨32400, 10⟩ 33600, some 33600, true⟩) :=
  (absent_transition_fields ⟨32400, 10⟩ [(2, ⟨.absent, none, false⟩)] 2 33600
    ⟨.absent, none, false⟩ rfl rfl).1

/-- **C9.** The cache only ever holds non-empty encoding lists: any call made
under that invariant preserves it (the no-active error returns before the
cache write); when the roster yields no encodings and the entry is absent,
the call leaves the cache unchanged, returns the no-active error and has hit
the enrollment store (so every subsequent call re-queries it); and a cache
hit always yields a non-empty known set. -/
theorem cache_nonempty_invariant (dist : Enc → Enc → ℤ) (thr : ℤ)
    (fichaOpt : Option Ficha) (cache : Cache) (detections : List Enc)
    (sess : Session) (db : AttDB) (now : ℤ)
    (hinv : ∀ k d, cacheLookup cache k = some d → d.1 ≠ []) :
    (∀ k d,
        cacheLookup (recognize dist thr fichaOpt cache detections sess db now).cache
          k = some d → d.1 ≠ []) ∧
    (∀ f, fichaOpt = some f → cacheLookup cache f.id = none →
        (buildKnown f.students).1 = [] →
        (recognize dist thr fichaOpt cache detections sess db now).cache = cache ∧
        (recognize dist thr fichaOpt cache detections sess db now).result =
          .errorNoActive ∧
        Event.reloadFromDB ∈
          (recognize dist thr fichaOpt cache detections sess db now).events) ∧
    (∀ f d, fichaOpt = some f → cacheLookup cache f.id = some d → d.1 ≠ []) := by
  refine ⟨?_, ?_, ?_⟩
  · intro k d hk
    cases fichaOpt with
    | none => exact hinv k d (by simpa [recognize] using hk)
    | some f =>
        cases hc : cacheLookup cache f.id with
        | some data =>
            rw [show (recognize dist thr (some f) cache detections sess db now).cache
                = cache by simp [recognize, hc, recognizeWithKnown_cache]] at hk
            exact hinv k d hk
        | none =>
            cases hempty : (buildKnown f.students).1.isEmpty with
            | true =>
                rw [show (recognize dist thr (some f) cache detections sess db
                    now).cache = cache by simp [recognize, hc, hempty]] at hk
                exact hinv k d hk
            | false =>
                rw [show (recognize dist thr (some f) cache detections sess db
                    now).cache = cacheSet cache f.id (buildKnown f.students) by
                  simp [recognize, hc, hempty, recognizeWithKnown_cache]] at hk
                rw [cacheLookup_cacheSet] at hk
                by_cases hkf : f.id = k
                · rw [if_pos hkf] at hk
                  obtain rfl : buildKnown f.students = d := by injection hk
                  simpa using hempty
                · rw [if_neg hkf] at hk
                  exact hinv k d hk
  · rintro f rfl hc hb
    have hempty : (buildKnown f.students).1.isEmpty = true := by simp [hb]
    refine ⟨?_, ?_, ?_⟩ <;> simp [recognize, hc, hempty]
  · rintro f d rfl hc
    exact hinv f.id d hc

/-- Witness for C9: empty cache, cohort 4 with an empty roster — the call
returns the no-active error, touches the store, and writes nothing. -/
theorem cache_nonempty_invariant_witness :
    (recognize l1dist 1 (some ⟨4, []⟩) [] [] ⟨32400, 10⟩ [] 0).cache = [] ∧
    (recognize l1dist 1 (some ⟨4, []⟩) [] [] ⟨32400, 10⟩ [] 0).result =
      .errorNoActive ∧
    Event.reloadFromDB ∈
      (recognize l1dist 1 (some ⟨4, []⟩) [] [] ⟨32400, 10⟩ [] 0).events :=
  (cache_nonempty_invariant l1dist 1 (some ⟨4, []⟩) [] [] ⟨32400, 10⟩ [] 0
    (by intro k d h; simp [cacheLookup] at h)).2.1 ⟨4, []⟩ rfl rfl rfl

/-- **C6 (amended).** Empty roster short-circuits *when no cached entry for
the cohort is served*: on a cache miss, a cohort with no active embedding
yields the no-active error with the cache and table untouched, and face
detection is never invoked. -/
theorem empty_roster_short_circuit (dist : Enc → Enc → ℤ) (thr : ℤ) (f : Ficha)
    (cache : Cache) (detections : List Enc) (sess : Session) (db : AttDB)
    (now : ℤ) (hmiss : cacheLookup cache f.id = none)
    (hempty : ∀ s ∈ f.students, ¬(s.hasEncoding = true ∧ s.isActive = true)) :
    recognize dist thr (some f) cache detections sess db now =
      ⟨.errorNoActive, db, cache, [.reloadFromDB]⟩ ∧
    Event.detect ∉
      (recognize dist thr (some f) cache detections sess db now).events := by
  have hb : buildKnown f.students = ([], []) := buildKnown_eq_nil f.students hempty
  constructor
  · simp [recognize, hmiss, hb]
  · simp [recognize, hmiss, hb]

/-- Witness for C6 (amended): cohort 6 whose only student is deactivated, an
empty cache, and a frame with one detection; the call errors out before any
detection work. -/
theorem empty_roster_short_circuit_witness :
    recognize l1dist 1 (some ⟨6, [⟨3, true, false, some enc0⟩]⟩) [] [[0]]
        ⟨32400, 10⟩ [] 0 =
      ⟨.errorNoActive, [], [], [.reloadFromDB]⟩ :=
  (empty_roster_short_circuit l1dist 1 ⟨6, [⟨3, true, false, some enc0⟩]⟩ []
    [[0]] ⟨32400, 10⟩ [] 0 rfl (by decide)).1

/-- **C6 counterexample.** The claim as stated fails on the code: a cohort
whose set of active embeddings is empty does *not* short-circuit when a
fresh-enough cached entry from before the deactivation is served. In the
two-call scenario below the first call caches student 3's encoding, the
encoding is then deactivated, and the second call — although the cohort has
zero active embeddings — runs face detection and does not return the
no-active outcome. -/
theorem stale_cache_defeats_empty_roster :
    (∀ s ∈ fichaInactive5.students, ¬(s.hasEncoding = true ∧ s.isActive = true)) ∧
    staleCall.result ≠ .errorNoActive ∧
    Event.detect ∈ staleCall.events := by
  refine ⟨?_, by decide, by decide⟩
  intro s hs
  simp [fichaInactive5] at hs
  simp [hs]

/-- **C5 (amended).** The returned list is not a full per-detection audit:
for a non-empty detection list the call returns exactly the entries of the
uniquely matched detections whose application transitioned a record — the
filter of the per-detection audit trail by `auditEntry` — while ambiguous,
no-match, `NoOp` and `RecordMissing` detections contribute no entry (the
audit pair list itself does have one element per detection). -/
theorem result_entries_are_transitions (dist : Enc → Enc → ℤ) (thr : ℤ)
    (data : KnownData) (cache : Cache) (sess : Session) (db : AttDB) (now : ℤ)
    (evs : List Event) (e : Enc) (rest : List Enc) :
    (recognizeWithKnown dist thr data cache (e :: rest) sess db now evs).result =
      .recognized
        ((recognizeLoop dist thr data.1 data.2 sess now db (e :: rest)).audit.filterMap
          auditEntry) ∧
    (recognizeLoop dist thr data.1 data.2 sess now db (e :: rest)).audit.length =
      (e :: rest).length := by
  obtain ⟨h1, h2⟩ :=
    recognizeLoop_entries_audit dist thr data.1 data.2 sess now (e :: rest) db
  exact ⟨by simp [recognizeWithKnown, h2], h1⟩

/-- **C5 counterexample.** The claim as stated fails on the code: a frame
with exactly one detection that is ambiguous between students 1 and 2
returns an *empty* `recognized_students` list — there is no per-detection
entry carrying the ambiguous match outcome. -/
theorem one_detection_zero_entries :
    (recognize l1dist 1 (some fichaAmb) [] [enc0] ⟨32400, 10⟩
        [(1, ⟨.absent, none, false⟩), (2, ⟨.absent, none, false⟩)] 33000).result =
      .recognized [] ∧
    ([enc0] : List Enc).length = 1 := by
  exact ⟨by decide, by decide⟩

/-- **C7 (amended).** A unique match for a student with no attendance record
for the session leaves the table untouched and creates no record, continues
with the remaining detections exactly as if the detection had not occurred,
and the `RecordMissing` outcome is *logged only* — it contributes nothing to
the returned `recognized_students` value. -/
theorem record_missing_logged_only (dist : Enc → Enc → ℤ) (thr : ℤ)
    (kE : List Enc) (kI : List ℕ) (sess : Session) (now : ℤ) (db : AttDB)
    (e : Enc) (rest : List Enc) (j sid : ℕ)
    (hidx : matchedIndicesOf dist thr kE e = [j])
    (hsid : kI.getD j 0 = sid) (h0 : sid ≠ 0)
    (hmiss : dbLookup db sid = none) :
    processFace dist thr kE kI sess now db e =
      ⟨db, none, [.logRecordMissing sid], .unique sid, some .recordMissing⟩ ∧
    recognizeLoop dist thr kE kI sess now db (e :: rest) =
      ⟨(recognizeLoop dist thr kE kI sess now db rest).db,
        (recognizeLoop dist thr kE kI sess now db rest).entries,
        .logRecordMissing sid ::
          (recognizeLoop dist thr kE kI sess now db rest).events,
        (.unique sid, some .recordMissing) ::
          (recognizeLoop dist thr kE kI sess now db rest).audit⟩ := by
  rw [List.getD_eq_getElem?_getD] at hsid
  have hpf : processFace dist thr kE kI sess now db e =
      ⟨db, none, [.logRecordMissing sid], .unique sid, some .recordMissing⟩ := by
    simp [processFace, hidx, matchedStudentId, truthy, hsid, h0,
      applyFaceVerification, hmiss]
  refine ⟨hpf, ?_⟩
  simp [recognizeLoop, hpf]

/-- Witness for C7 (amended): the frame's first face uniquely matches
student 7, who has no row; the step only logs. -/
theorem record_missing_logged_only_witness :
    processFace l1dist 1 [[0], [10]] [7, 8] ⟨32400, 10⟩ 33000
        [(8, ⟨Status.absent, none, false⟩)] [0] =
      ⟨[(8, ⟨Status.absent, none, false⟩)], none, [.logRecordMissing 7],
        .unique 7, some .recordMissing⟩ :=
  (record_missing_logged_only l1dist 1 [[0], [10]] [7, 8] ⟨32400, 10⟩ 33000
    [(8, ⟨Status.absent, none, false⟩)] [0] [[10]] 0 7 (by decide) (by decide)
    (by decide) (by decide)).1

/-- **C7 counterexample.** The claim's "surfaced to the caller" part fails on
the code: in `missingCall` the first detection uniquely matches student 7,
who has no record, yet the returned value is exactly
`recognized_students = [{id 8, present}]` — a value that carries no
`RecordMissing` indication whatsoever (the miss exists only in the log
trace); meanwhile no row for 7 was created and detection 2 was still
processed and transitioned student 8. -/
theorem record_missing_not_surfaced :
    missingCall.result = .recognized [⟨8, .present⟩] ∧
    missingCall.events =
      [.reloadFromDB, .cacheSet 9, .detect, .logRecordMissing 7, .save 8] ∧
    dbLookup missingCall.db 7 = none ∧
    missingCall.db = [(8, ⟨.present, some 33000, true⟩)] := by
  refine ⟨by decide, by decide, by decide, by decide⟩

/-- **C8 (amended).** The cache population is an unsynchronized
check-then-set, not single-flight: over every interleaving of two callers
that both complete against an initially missing/expired entry, the number of
reloads from the enrollment store is between one and two — and the racy
interleavings really do reload twice (see the counterexample) — while every
caller still ends up observing the store's data; no caller ever blocks
another (the model has no blocking step at all). -/
theorem check_then_set_reload_bounds (dbData : KnownData) (sch : List Bool)
    (h1 : (runSched dbData raceInit sch).c1.pc = 2)
    (h2 : (runSched dbData raceInit sch).c2.pc = 2) :
    1 ≤ (runSched dbData raceInit sch).reloads ∧
    (runSched dbData raceInit sch).reloads ≤ 2 ∧
    (runSched dbData raceInit sch).c1.seen = some dbData ∧
    (runSched dbData raceInit sch).c2.seen = some dbData := by
  obtain ⟨hc, hs1, hs2, p1, p2, hr⟩ :=
    raceInv_run dbData sch raceInit (raceInv_init dbData)
  cases hx1 : (runSched dbData raceInit sch).c1.seen with
  | none => exact absurd hx1 (p1 h1)
  | some d1 =>
      cases hx2 : (runSched dbData raceInit sch).c2.seen with
      | none => exact absurd hx2 (p2 h2)
      | some d2 =>
          obtain ⟨he1, hrel⟩ := hs1 d1 hx1
          obtain ⟨he2, -⟩ := hs2 d2 hx2
          refine ⟨hrel, ?_, ?_, ?_⟩
          · rw [h1, h2] at hr
            simpa using hr
          · rw [he1]
          · rw [he2]

/-- Witness for C8 (amended): the fully sequential schedule — caller 1 runs
to completion, then caller 2 — completes both callers with exactly one
reload and both observing the loaded data. -/
theorem check_then_set_reload_bounds_witness :
    1 ≤ (runSched ([[0]], [1]) raceInit [false, false, true, true]).reloads ∧
    (runSched ([[0]], [1]) raceInit [false, false, true, true]).reloads ≤ 2 ∧
    (runSched ([[0]], [1]) raceInit [false, false, true, true]).c1.seen =
      some ([[0]], [1]) ∧
    (runSched ([[0]], [1]) raceInit [false, false, true, true]).c2.seen =
      some ([[0]], [1]) :=
  check_then_set_reload_bounds ([[0]], [1]) [false, false, true, true]
    (by decide) (by decide)

/-- **C8 counterexample.** "Exactly one reload" fails on the code: under the
interleaving in which both callers run `cache.get` before either acts on the
miss, both callers complete and the enrollment store is reloaded twice. -/
theorem concurrent_miss_double_reload :
    (runSched ([[0]], [1]) raceInit [false, true, false, true]).c1.pc = 2 ∧
    (runSched ([[0]], [1]) raceInit [false, true, false, true]).c2.pc = 2 ∧
    (runSched ([[0]], [1]) raceInit [false, true, false, true]).reloads = 2 := by
  refine ⟨by decide, by decide, by decide⟩

end FaceLog
